import Mathlib

/-!
Verification of the `svs_deid_pipeline` repository: a shallow embedding of
the SVS/TIFF associated-image redaction engine
(`svs_deid_pipeline/deidentification.py`), the destination-path derivation
and resumable orchestration loop (`svs_deid_pipeline/pipeline.py`), and the
manifest reader, together with theorems settling the frozen claims about
them.

Machine integers are modelled as `Nat` with explicit `% 2^w` where the
Python code relies on fixed-width arithmetic (SHA-256).  A file's contents
are a `List Nat` of byte values; `fp.seek`/`fp.write` on a file opened in
`r+b` mode become `writeAt`.  Fallible code returns `Except`, and the
state of the open file handle is tracked explicitly so resource-release
claims can be stated.
-/

namespace SvsDeid

/-! ### Byte-level file primitives

`writeAt file off bs` models `fp.seek(off); fp.write(bytes(bs))` on a file
opened in `r+b` mode: bytes `[off, off+len(bs))` are overwritten in place;
a seek past EOF zero-fills the gap and the file grows as needed. -/

def writeAt (file : List Nat) (off : Nat) (bs : List Nat) : List Nat :=
  (file.take off ++ List.replicate (off - file.length) 0) ++ bs
    ++ file.drop (off + bs.length)

/-- `readNat file off size be` models `struct.unpack(fmt, fp.read(size))`
for an unsigned integer field of `size` bytes at offset `off`; `be` selects
big-endian (`'MM'` TIFF byte order) versus little-endian (`'II'`).
Reads past EOF yield zero bytes (the claims under verification only
exercise in-range reads). -/
def readNat (file : List Nat) (off size : Nat) (be : Bool) : Nat :=
  let bytes := (List.range size).map (fun i => file.getD (off + i) 0)
  let ordered := if be then bytes else bytes.reverse
  ordered.foldl (fun acc b => acc * 256 + b) 0

/-- `packNat v size be` models `struct.pack(fmt, v)`: the `size`-byte
encoding of `v` in the file's byte order. -/
def packNatLE (v : Nat) : (size : Nat) → List Nat
  | 0 => []
  | n + 1 => v % 256 :: packNatLE (v / 256) n

def packNat (v size : Nat) (be : Bool) : List Nat :=
  if be then (packNatLE v size).reverse else packNatLE v size

/-! ### Parsed SVS/TIFF structure

`deidentification.delete_associated_image` opens the file with
`tifffile.TiffFile` and then works from (a) the parsed per-page data
(`page.offset`, `page.description`, the `StripOffsets`/`StripByteCounts`
tag values, and each tag's `valueoffset`/`count`) and (b) raw reads of the
underlying byte stream.  The embedding carries the parsed structure
alongside the raw bytes. -/

structure TagEntry where
  valueoffset : Nat
  count : Nat
deriving DecidableEq

structure SvsPage where
  offset : Nat
  description : String
  stripOffsets : List Nat
  stripByteCounts : List Nat
  tags : List TagEntry
deriving DecidableEq

/-- The format parameters `t.tiff.offsetsize / tagnosize / tagsize` and the
byte order (`bigEndian` for `'MM'` files). -/
structure TiffMeta where
  offsetsize : Nat
  tagnosize : Nat
  tagsize : Nat
  bigEndian : Bool
deriving DecidableEq

structure SvsFile where
  bytes : List Nat
  pages : List SvsPage
  meta : TiffMeta
deriving DecidableEq

/-- `containsSub s sub` models Python's `sub in s` on strings. -/
def charsStartWith (sub s : List Char) : Bool :=
  match sub, s with
  | [], _ => true
  | _ :: _, [] => false
  | c :: cs, d :: ds => c = d && charsStartWith cs ds

def containsSub (s sub : String) : Bool :=
  (List.range (s.data.length + 1)).any
    (fun i => charsStartWith sub.data (s.data.drop i))

/-- One entry of the `ifds` list built by `delete_associated_image`
(lines 288-301): a page's directory offset, the file offset of its
pointer-to-next-IFD field, and the value stored there. -/
structure IFD where
  this : Nat
  next_ifd_offset : Nat
  next_ifd_value : Nat
deriving DecidableEq

/-- Lines 288-301: for every page, seek to its offset, read the tag count,
skip the tag table, record the position and value of the next-IFD field. -/
def computeIFDs (f : SvsFile) : List IFD :=
  f.pages.map (fun p =>
    let numTags := readNat f.bytes p.offset f.meta.tagnosize f.meta.bigEndian
    let nextOff := p.offset + f.meta.tagnosize + numTags * f.meta.tagsize
    { this := p.offset
      next_ifd_offset := nextOff
      next_ifd_value := readNat f.bytes nextOff f.meta.offsetsize f.meta.bigEndian })

/-- Line 304: `[i for i in ifds if i['this'] == page.offset][0]` (the `[0]`
raises `IndexError` when the filter is empty, hence `Option`). -/
def pageIFD (f : SvsFile) (page : SvsPage) : Option IFD :=
  ((computeIFDs f).filter (fun i => i.this = page.offset)).head?

/-- Line 306: `[i for i in ifds if i['next_ifd_value'] == page.offset]`. -/
def predIFDs (f : SvsFile) (page : SvsPage) : List IFD :=
  (computeIFDs f).filter (fun i => i.next_ifd_value = page.offset)

/-- Lines 256-267: choose the candidate pages for the requested slot.
`'Aperio Image Library'` files (and the default branch) filter pages whose
description contains the slot name; `'Aperio Leica Biosystems GT450'`
files take the second-to-last page for `label` and the last for `macro`.
Errors are the `IndexError`s Python raises for `t.pages[0]` / `t.pages[-2]`
on too-short page lists. -/
def selectPages (f : SvsFile) (imageType : String) : Except String (List SvsPage) :=
  match f.pages with
  | [] => .error "IndexError: list index out of range"
  | first :: rest =>
    if containsSub first.description "Aperio Image Library" then
      .ok ((first :: rest).filter (fun p => containsSub p.description imageType))
    else if containsSub first.description "Aperio Leica Biosystems GT450" then
      if imageType = "label" then
        match rest with
        | [] => .error "IndexError: list index out of range"
        | r1 :: rs => .ok [(first :: r1 :: rs).get ⟨rs.length, by simp only [List.length_cons]; omega⟩]
      else
        .ok [(first :: rest).getLast (by simp)]
    else
      .ok ((first :: rest).filter (fun p => containsSub p.description imageType))

/-- Lines 320-328: zero a list of `(offset, byteCount)` regions in place,
in order — used for the strip data and again for the tag values. -/
def zeroRegions (file : List Nat) (ws : List (Nat × Nat)) : List Nat :=
  ws.foldl (fun acc w => writeAt acc w.1 (List.replicate w.2 0)) file

/-- Lines 314-342: the in-place surgery once the target page, its IFD
descriptor and its predecessor are fixed — zero the strips, zero every
tag's value bytes (`tag.count` bytes at `tag.valueoffset`), zero the page
header from the directory offset through the next-pointer field, then
rewrite the predecessor's next-pointer to the target's former value. -/
def redactBytes (f : SvsFile) (page : SvsPage) (pifd prev : IFD) : List Nat :=
  let b1 := zeroRegions f.bytes (page.stripOffsets.zip page.stripByteCounts)
  let b2 := zeroRegions b1 (page.tags.map (fun t => (t.valueoffset, t.count)))
  let pagebytes := (pifd.next_ifd_offset - pifd.this) + f.meta.offsetsize
  let b3 := writeAt b2 pifd.this (List.replicate pagebytes 0)
  writeAt b3 prev.next_ifd_offset
    (packNat pifd.next_ifd_value f.meta.offsetsize f.meta.bigEndian)

instance {ε α : Type} [DecidableEq ε] [DecidableEq α] : DecidableEq (Except ε α) := fun a b =>
  match a, b with
  | .ok x, .ok y =>
    if h : x = y then isTrue (by rw [h]) else isFalse (fun hc => h (Except.ok.inj hc))
  | .error m, .error n =>
    if h : m = n then isTrue (by rw [h]) else isFalse (fun hc => h (Except.error.inj hc))
  | .ok _, .error _ => isFalse (fun hc => Except.noConfusion hc)
  | .error _, .ok _ => isFalse (fun hc => Except.noConfusion hc)

/-- Result of one `delete_associated_image` call: the exception raised (if
any), the file contents at exit, whether `open(slide_path, 'r+b')` was
reached, and whether `fp.close()` was executed before exit. -/
structure DeidRun where
  result : Except String Unit
  bytes : List Nat
  opened : Bool
  closed : Bool
deriving DecidableEq

/-- `delete_associated_image` (deidentification.py lines 240-344). -/
def delete_associated_image (f : SvsFile) (imageType : String) : DeidRun :=
  if imageType ∈ (["label", "macro"] : List String) then
    -- fp = open(slide_path, 'r+b'); t = TiffFile(fp)
    match selectPages f imageType with
    | .error m => ⟨.error m, f.bytes, true, false⟩
    | .ok filtered =>
      if filtered.length > 1 then
        ⟨.error ("Invalid SVS format: duplicate associated " ++ imageType
            ++ " images found"), f.bytes, true, false⟩
      else
        match filtered with
        | [] => ⟨.ok (), f.bytes, true, false⟩  -- early `return`: fp never closed
        | page :: _ =>
          match pageIFD f page with
          | none => ⟨.error "IndexError: list index out of range", f.bytes, true, false⟩
          | some pifd =>
            match predIFDs f page with
            | [] => ⟨.error "No page points to this one", f.bytes, true, false⟩
            | prev :: _ =>  -- `previfd = previfd[0]`
              ⟨.ok (), redactBytes f page pifd prev, true, true⟩
  else
    ⟨.error "Invalid image type requested for deletion", f.bytes, false, false⟩

/-! ### pipeline.py: destination-path derivation

`_stable_hash(value)` is `hashlib.sha256(value.encode("utf-8")).hexdigest()`;
`destination_basename(row)` is `f"svs_{_stable_hash(f"{rid}|{specnum_formatted}")[:16]}.svs"`.
SHA-256 is implemented over `Nat` with explicit `% 2 ^ 32`, and UTF-8
encoding of the key string is spelled out, so the hash is the actual
function of the key bytes that the code computes. -/

def utf8Bytes (c : Char) : List Nat :=
  let n := c.toNat
  if n < 0x80 then [n]
  else if n < 0x800 then [0xC0 + n / 64, 0x80 + n % 64]
  else if n < 0x10000 then [0xE0 + n / 4096, 0x80 + (n / 64) % 64, 0x80 + n % 64]
  else [0xF0 + n / 262144, 0x80 + (n / 4096) % 64, 0x80 + (n / 64) % 64, 0x80 + n % 64]

def strBytes (s : String) : List Nat := (s.data.map utf8Bytes).flatten

def rotr (n x : Nat) : Nat := ((x >>> n) ||| (x <<< (32 - n))) % 2 ^ 32

def shaCh (e f g : Nat) : Nat := (e &&& f) ^^^ ((e ^^^ 0xFFFFFFFF) &&& g)

def shaMaj (a b c : Nat) : Nat := (a &&& b) ^^^ (a &&& c) ^^^ (b &&& c)

def bigSigma0 (x : Nat) : Nat := rotr 2 x ^^^ rotr 13 x ^^^ rotr 22 x

def bigSigma1 (x : Nat) : Nat := rotr 6 x ^^^ rotr 11 x ^^^ rotr 25 x

def smallSigma0 (x : Nat) : Nat := rotr 7 x ^^^ rotr 18 x ^^^ (x >>> 3)

def smallSigma1 (x : Nat) : Nat := rotr 17 x ^^^ rotr 19 x ^^^ (x >>> 10)

/-- The 64 SHA-256 round constants (FIPS 180-4), in decimal. -/
def shaK : List Nat :=
  [1116352408, 1899447441, 3049323471, 3921009573, 961987163, 1508970993, 2453635748,
   2870763221, 3624381080, 310598401, 607225278, 1426881987, 1925078388, 2162078206,
   2614888103, 3248222580, 3835390401, 4022224774, 264347078, 604807628, 770255983,
   1249150122, 1555081692, 1996064986, 2554220882, 2821834349, 2952996808, 3210313671,
   3336571891, 3584528711, 113926993, 338241895, 666307205, 773529912, 1294757372,
   1396182291, 1695183700, 1986661051, 2177026350, 2456956037, 2730485921, 2820302411,
   3259730800, 3345764771, 3516065817, 3600352804, 4094571909, 275423344, 430227734,
   506948616, 659060556, 883997877, 958139571, 1322822218, 1537002063, 1747873779,
   1955562222, 2024104815, 2227730452, 2361852424, 2428436474, 2756734187, 3204031479,
   3329325298]

structure Hash8 where
  a : Nat
  b : Nat
  c : Nat
  d : Nat
  e : Nat
  f : Nat
  g : Nat
  h : Nat
deriving DecidableEq

/-- The SHA-256 initial hash value (FIPS 180-4), in decimal. -/
def shaH0 : Hash8 :=
  ⟨1779033703, 3144134277, 1013904242, 2773480762, 1359893119, 2600822924, 528734635,
   1541459225⟩

def padMsg (msg : List Nat) : List Nat :=
  msg ++ [0x80] ++ List.replicate ((119 - msg.length % 64) % 64) 0
    ++ packNat (8 * msg.length) 8 true

def bytesToWords : List Nat → List Nat
  | b0 :: b1 :: b2 :: b3 :: rest =>
    (((b0 * 256 + b1) * 256 + b2) * 256 + b3) :: bytesToWords rest
  | _ => []

/-- Split the padded message (always a whole number of 16-word blocks)
into its 512-bit blocks. -/
def toBlocks : List Nat → List (List Nat)
  | w0 :: w1 :: w2 :: w3 :: w4 :: w5 :: w6 :: w7 ::
      w8 :: w9 :: w10 :: w11 :: w12 :: w13 :: w14 :: w15 :: rest =>
    [w0, w1, w2, w3, w4, w5, w6, w7, w8, w9, w10, w11, w12, w13, w14, w15]
      :: toBlocks rest
  | _ => []

def extendW (block : List Nat) : List Nat :=
  (List.range 48).foldl (fun w i =>
    w ++ [(smallSigma1 (w.getD (i + 14) 0) + w.getD (i + 9) 0
        + smallSigma0 (w.getD (i + 1) 0) + w.getD i 0) % 2 ^ 32]) block

def shaStep (w : List Nat) (st : Hash8) (i : Nat) : Hash8 :=
  let t1 := (st.h + bigSigma1 st.e + shaCh st.e st.f st.g + shaK.getD i 0
      + w.getD i 0) % 2 ^ 32
  let t2 := (bigSigma0 st.a + shaMaj st.a st.b st.c) % 2 ^ 32
  ⟨(t1 + t2) % 2 ^ 32, st.a, st.b, st.c, (st.d + t1) % 2 ^ 32, st.e, st.f, st.g⟩

def compressBlock (st : Hash8) (block : List Nat) : Hash8 :=
  let e := (List.range 64).foldl (shaStep (extendW block)) st
  ⟨(st.a + e.a) % 2 ^ 32, (st.b + e.b) % 2 ^ 32, (st.c + e.c) % 2 ^ 32,
   (st.d + e.d) % 2 ^ 32, (st.e + e.e) % 2 ^ 32, (st.f + e.f) % 2 ^ 32,
   (st.g + e.g) % 2 ^ 32, (st.h + e.h) % 2 ^ 32⟩

def sha256Bytes (msg : List Nat) : List Nat :=
  let fin := (toBlocks (bytesToWords (padMsg msg))).foldl compressBlock shaH0
  packNat fin.a 4 true ++ packNat fin.b 4 true ++ packNat fin.c 4 true
    ++ packNat fin.d 4 true ++ packNat fin.e 4 true ++ packNat fin.f 4 true
    ++ packNat fin.g 4 true ++ packNat fin.h 4 true

def hexDigits : List Char := "0123456789abcdef".data

def hexDigitChar (n : Nat) : Char := hexDigits.getD n 'f'

def hexOfBytes (bs : List Nat) : String :=
  String.mk (bs.foldr (fun b acc => hexDigitChar (b / 16) :: hexDigitChar (b % 16) :: acc) [])

/-- `pipeline._stable_hash` (pipeline.py lines 79-80). -/
def stable_hash (value : String) : String := hexOfBytes (sha256Bytes (strBytes value))

/-- The two manifest-row fields `destination_basename` reads. -/
structure RowKey where
  rid : String
  specnum_formatted : String
deriving DecidableEq

/-- `pipeline.destination_basename` (pipeline.py lines 83-86). -/
def destination_basename (row : RowKey) : String :=
  "svs_" ++ (stable_hash (row.rid ++ "|" ++ row.specnum_formatted)).take 16 ++ ".svs"

/-! ### deidentification.py: `copy_and_strip` and `deidentify_one`

The filesystem is a finite association of paths to parsed SVS contents;
`shutil.copyfile` and `os.remove` act on it, and
`delete_associated_image(path, ...)` is the byte surgery above applied to
the file stored at `path`.  I/O failures of the copy are injected through
an oracle carrying the exception text (and whether a partial destination
file was left behind), which is how the try/except control flow of
`copy_and_strip` (lines 371-431) is exercised. -/

abbrev FS : Type := List (String × SvsFile)

def fsLookup (fs : FS) (p : String) : Option SvsFile :=
  (fs.find? (fun e => e.1 = p)).map (fun e => e.2)

def fsAdd (fs : FS) (p : String) (c : SvsFile) : FS := (p, c) :: fs

def fsSet (fs : FS) (p : String) (c : SvsFile) : FS :=
  fs.map (fun e => if e.1 = p then (p, c) else e)

def fsRemove (fs : FS) (p : String) : FS := fs.filter (fun e => e.1 ≠ p)

structure CopyErrInfo where
  msg : String
  partialContent : Option SvsFile

structure IOOracle where
  copyErr : String → String → Option CopyErrInfo

/-- `shutil.copyfile(src, dst)`: opening a missing source raises
`FileNotFoundError`; an injected I/O failure raises with its message after
possibly leaving a partial destination file; otherwise the destination
holds a copy of the source's content. -/
def copyfile (o : IOOracle) (fs : FS) (src dst : String) : Option String × FS :=
  match fsLookup fs src with
  | none => (some ("[Errno 2] No such file or directory: " ++ src), fs)
  | some c =>
    match o.copyErr src dst with
    | some info =>
      (some info.msg,
        match info.partialContent with
        | some pc => fsAdd fs dst pc
        | none => fs)
    | none => (none, fsAdd fs dst c)

/-- `delete_associated_image(path, imageType)` acting on the filesystem:
open the stored file, run the surgery, write the new bytes back; an
exception inside the surgery leaves the stored bytes unchanged (every
raise in `delete_associated_image` happens before its first write). -/
def deleteOnFS (fs : FS) (path imageType : String) : Option String × FS :=
  match fsLookup fs path with
  | none => (some ("[Errno 2] No such file or directory: " ++ path), fs)
  | some c =>
    match (delete_associated_image c imageType).result with
    | .error m => (some m, fs)
    | .ok _ => (none, fsSet fs path { c with bytes := (delete_associated_image c imageType).bytes })

/-- One entry of the `CopyOp` progress aggregate (lines 444-450). -/
structure CopyOpEntry where
  source : String
  dest : Option String
  filesize : Nat
  done : Bool
  renamed : Bool
  failed : Bool
  failure_message : String
deriving DecidableEq

/-- `str(ii)` for the `f'{filename}({str(ii)}){file_extension}'` rename
candidates: the decimal representation of `ii`. -/
def natRepr (n : Nat) : String :=
  if n = 0 then "0" else String.mk (((Nat.digits 10 n).reverse).map hexDigitChar)

def candidateName (fname ext : String) (ii : Nat) : String :=
  fname ++ "(" ++ natRepr ii ++ ")" ++ ext

def hexDigitChar_inj_below : ∀ a, a < 16 → ∀ b, b < 16 →
    hexDigitChar a = hexDigitChar b → a = b := by decide

def map_hexDigitChar_inj : ∀ l1 l2 : List Nat, (∀ d ∈ l1, d < 10) → (∀ d ∈ l2, d < 10) →
    l1.map hexDigitChar = l2.map hexDigitChar → l1 = l2 := by
  intro l1
  induction l1 with
  | nil => intro l2 _ _ h; cases l2 <;> simp_all
  | cons d l ih =>
    intro l2 h1 h2 h
    cases l2 with
    | nil => simp at h
    | cons e l2 =>
      simp only [List.map_cons, List.cons.injEq] at h
      have hd : d = e := hexDigitChar_inj_below d
        (by have := h1 d (by simp); omega) e (by have := h2 e (by simp); omega) h.1
      rw [hd, ih l2 (fun x hx => h1 x (by simp [hx])) (fun x hx => h2 x (by simp [hx])) h.2]

def natRepr_injective : Function.Injective natRepr := by
  intro a b h
  by_cases ha : a = 0 <;> by_cases hb : b = 0
  · rw [ha, hb]
  · exfalso
    rw [ha] at h
    simp only [natRepr, if_pos rfl, if_neg hb] at h
    have hd := congrArg String.data h
    have hlen := congrArg List.length hd
    simp only [List.length_map, List.length_reverse] at hlen
    have h1 : (Nat.digits 10 b).length = 1 := by
      simpa using hlen.symm
    rcases List.length_eq_one.1 h1 with ⟨dgt, hdgt⟩
    rw [hdgt] at hd
    have : ('0' : Char) = hexDigitChar dgt := by simpa using hd
    have hdlt : dgt < 10 := Nat.digits_lt_base (by omega) (by rw [hdgt]; simp)
    have : dgt = 0 := (hexDigitChar_inj_below 0 (by omega) dgt (by omega) this).symm
    have hb0 : b = Nat.ofDigits 10 (Nat.digits 10 b) := (Nat.ofDigits_digits 10 b).symm
    rw [hdgt, this] at hb0
    simp [Nat.ofDigits] at hb0
    exact hb hb0
  · exfalso
    rw [hb] at h
    simp only [natRepr, if_pos rfl, if_neg ha] at h
    have hd := congrArg String.data h
    have hlen := congrArg List.length hd
    simp only [List.length_map, List.length_reverse] at hlen
    have h1 : (Nat.digits 10 a).length = 1 := by
      simpa using hlen
    rcases List.length_eq_one.1 h1 with ⟨dgt, hdgt⟩
    rw [hdgt] at hd
    have : hexDigitChar dgt = ('0' : Char) := by simpa using hd
    have hdlt : dgt < 10 := Nat.digits_lt_base (by omega) (by rw [hdgt]; simp)
    have : dgt = 0 := hexDigitChar_inj_below dgt (by omega) 0 (by omega) this
    have ha0 : a = Nat.ofDigits 10 (Nat.digits 10 a) := (Nat.ofDigits_digits 10 a).symm
    rw [hdgt, this] at ha0
    simp [Nat.ofDigits] at ha0
    exact ha ha0
  · simp only [natRepr, if_neg ha, if_neg hb] at h
    have hd := congrArg String.data h
    simp only at hd
    have hrev : (Nat.digits 10 a).reverse = (Nat.digits 10 b).reverse :=
      map_hexDigitChar_inj _ _
        (fun d hd' => Nat.digits_lt_base (by omega) (List.mem_reverse.1 hd'))
        (fun d hd' => Nat.digits_lt_base (by omega) (List.mem_reverse.1 hd')) hd
    have : Nat.digits 10 a = Nat.digits 10 b := by
      simpa using congrArg List.reverse hrev
    exact Nat.digits_inj_iff.1 this

def candidateName_injective (fname ext : String) :
    Function.Injective (candidateName fname ext) := by
  intro a b h
  have hd := congrArg String.data h
  simp only [candidateName, String.data_append] at hd
  exact natRepr_injective (String.ext
    (List.append_cancel_left (List.append_cancel_right (List.append_cancel_right hd))))

/-- The `while True` rename search always terminates: among the first
`|keys| + 1` candidate names (all distinct), at least one is unused. -/
def exists_free_candidate (keys : List String) (fname ext : String) :
    ∃ ii, 1 ≤ ii ∧ candidateName fname ext ii ∉ keys := by
  by_contra hcon
  push_neg at hcon
  have hsub : (Finset.Icc 1 (keys.length + 1)).image (candidateName fname ext)
      ⊆ keys.toFinset := by
    intro x hx
    rcases Finset.mem_image.1 hx with ⟨i, hi, rfl⟩
    exact List.mem_toFinset.2 (hcon i (Finset.mem_Icc.1 hi).1)
  have hcard : ((Finset.Icc 1 (keys.length + 1)).image (candidateName fname ext)).card
      = keys.length + 1 := by
    rw [Finset.card_image_of_injective _ (candidateName_injective fname ext), Nat.card_Icc]
    omega
  have h1 := Finset.card_le_card hsub
  have h2 : keys.toFinset.card ≤ keys.length := keys.toFinset_card_le
  omega

/-- Lines 406-415: the `ii = 1; while True` loop — the least `ii ≥ 1` whose
`f'{filename}({ii}){file_extension}'` does not exist yet. -/
def findFree (keys : List String) (fname ext : String) : Nat :=
  Nat.find (exists_free_candidate keys fname ext)

def fsKeys (fs : FS) : List String := fs.map (fun e => e.1)

/-- `os.path.splitext`: split off the extension at the last dot of the
basename, ignoring leading dots of the basename. -/
def splitExt (p : String) : String × String :=
  let cs := p.data
  let base := (cs.reverse.takeWhile (fun c => c ≠ '/')).reverse
  let stem := base.dropWhile (fun c => c = '.')
  let extRev := stem.reverse.takeWhile (fun c => c ≠ '.')
  if extRev.length = stem.length ∨ extRev.length = 0 then (p, "")
  else
    (String.mk (cs.take (cs.length - (extRev.length + 1))),
     String.mk ('.' :: extRev.reverse))

structure SrcDest where
  source : String
  dest : String

/-- Failure handler of `copy_and_strip` (lines 421-428): remove the copied
file (`FileNotFoundError` is swallowed), record the failure and the
exception text, and mark done. -/
def onFail (fs : FS) (newname : String) (op : CopyOpEntry) (msg : String) :
    FS × CopyOpEntry :=
  (fsRemove fs newname,
   { op with failed := true, failure_message := msg, done := true })

/-- Lines 417-420: `delete_associated_image(newname,'label')` then
`delete_associated_image(newname,'macro')`; any raise goes to `onFail`. -/
def redactPhase (fs : FS) (newname : String) (op : CopyOpEntry) : FS × CopyOpEntry :=
  match deleteOnFS fs newname "label" with
  | (some msg, fs1) => onFail fs1 newname op msg
  | (none, fs1) =>
    match deleteOnFS fs1 newname "macro" with
    | (some msg, fs2) => onFail fs2 newname op msg
    | (none, fs2) => (fs2, { op with done := true })

/-- The common tail of both branches of `copy_and_strip`: copy the source
onto the (not yet existing) name, then redact; any raise goes to the
failure handler. -/
def copyRedact (o : IOOracle) (oldname newname : String) (op : CopyOpEntry) (fs : FS) :
    FS × CopyOpEntry :=
  match copyfile o fs oldname newname with
  | (some msg, fs1) => onFail fs1 newname op msg
  | (none, fs1) => redactPhase fs1 newname op

/-- `copy_and_strip` (deidentification.py lines 371-431): if the
destination already exists, pick the first free `name(ii)`-suffixed
variant; record the destination used (and the rename) in the progress
entry before copying. -/
def copy_and_strip (o : IOOracle) (file : SrcDest) (op : CopyOpEntry) (fs : FS) :
    FS × CopyOpEntry :=
  match fsLookup fs file.dest with
  | none => copyRedact o file.source file.dest { op with dest := some file.dest } fs
  | some _ =>
    let se := splitExt file.dest
    let newname2 := candidateName se.1 se.2 (findFree (fsKeys fs) se.1 se.2)
    copyRedact o file.source newname2 { op with dest := some newname2, renamed := true } fs

structure DeidOneResult where
  destination : String
  status : String
  error : String
deriving DecidableEq

/-- Python's `status.get("dest") or destination`: fall back when `dest` is
`None` (or falsy, i.e. the empty string). -/
def pyOr (o : Option String) (d : String) : String :=
  match o with
  | some s => if s = "" then d else s
  | none => d

/-- The fresh `CopyOp` entry built by `deidentify_one` (lines 546-559). -/
def initCopyOp (source : String) (c : SvsFile) : CopyOpEntry :=
  ⟨source, none, c.bytes.length, false, false, false, ""⟩

/-- `deidentify_one` (deidentification.py lines 539-576): `.error` is an
exception propagating out (only possible with `fail_fast=True`). -/
def deidentify_one (o : IOOracle) (fs : FS) (source destination : String)
    (failFast : Bool) : Except String (FS × DeidOneResult) :=
  match fsLookup fs source with
  | none =>
    -- os.stat(source) raises; caught by the blanket except
    let msg := "[Errno 2] No such file or directory: " ++ source
    if failFast then .error msg
    else .ok (fs, ⟨destination, "failed", msg⟩)
  | some c =>
    let r := copy_and_strip o ⟨source, destination⟩ (initCopyOp source c) fs
    if r.2.failed ∧ failFast then
      .error "Deidentification failed with fail-fast enabled."
    else
      .ok (r.1,
        ⟨pyOr r.2.dest destination,
         if r.2.failed then "failed" else "success",
         r.2.failure_message⟩)

/-! ### pipeline.py: manifest reading and the orchestration loop

`read_manifest` keeps rows with a non-null `location` (empty CSV cells are
NaN) and resolves each location; the main `run_pipeline` loop
(lines 204-323) is embedded as a step function over an explicit state,
with the external effects (the prior status table, `os.path.exists`,
`deidentify_one`, `md5_checksum`, the S3 uploader and the submission
record generator) supplied as oracles in a `PipeEnv`. -/

structure ManifestRow where
  location : Option String
  rid : String
  specnum_formatted : String
  stain : String
  sample_id : String
deriving DecidableEq

def defaultManifestRow : ManifestRow := ⟨none, "", "", "", ""⟩

def isAbsolutePath (p : String) : Bool := charsStartWith ['/'] p.data

def joinPath (a b : String) : String := a ++ "/" ++ b

/-- `pipeline.read_manifest._resolve_location` (lines 67-73): absolute
locations are kept; a relative location that exists relative to the
process working directory resolves against the working directory
(`loc.resolve()`); otherwise it is joined to the manifest's directory. -/
def resolve_location (cwd manifestDir : String) (fsExists : String → Bool)
    (value : String) : String :=
  if isAbsolutePath value then value
  else if fsExists value then joinPath cwd value
  else joinPath manifestDir value

/-- The row transformation of `read_manifest` (lines 59-76): drop rows with
a null location, resolve the rest, keeping order. -/
def read_manifest_rows (cwd manifestDir : String) (fsExists : String → Bool)
    (rows : List ManifestRow) : List ManifestRow :=
  (rows.filter (fun r => r.location.isSome)).map
    (fun r => { r with
      location := some (resolve_location cwd manifestDir fsExists (r.location.getD "")) })

/-- What claim C9 asserts the resolution rule is: every relative location
resolves against the manifest's own directory. -/
def resolveAgainstDir (manifestDir value : String) : String :=
  if isAbsolutePath value then value else joinPath manifestDir value

/-- One row of `status.csv`. -/
structure StatusRow where
  destination : String
  source_hash : String
  status : String
  error : String
  md5 : String
  upload_status : String
  s3_uri : String
  local_deleted : String
deriving DecidableEq

def defaultStatusRow : StatusRow := ⟨"", "", "", "", "", "", "", ""⟩

/-- The dict returned by `deidentify_one` as consumed by the loop. -/
structure PipeWorkerResult where
  destination : String
  status : String
  error : String
deriving DecidableEq

/-- The configuration fields `run_pipeline`'s loop reads. -/
structure PipeConfig where
  resume : Bool
  s3Bucket : Option String
  s3Pfx : Option String
  keepLocal : Bool
  maxFiles : Option Nat
deriving DecidableEq

/-- External collaborators of the loop. -/
structure PipeEnv where
  existingStatus : String → Option StatusRow
  initS3Rows : List (String × String)
  initPersisted : List StatusRow
  localExists : String → Bool
  worker : String → String → PipeWorkerResult
  md5sum : String → Option String
  uploader : String → String → String
  manifestHas : String → Bool

/-- Loop state: accumulated rows, the processing counter, the number of
worker invocations (for "zero redaction work" claims), the in-memory S3
manifest, and the on-disk contents of `status.csv` / `s3_manifest.csv`. -/
structure LoopState where
  rows : List StatusRow
  processed : Nat
  workerCalls : Nat
  s3Rows : List (String × String)
  persisted : List StatusRow
  persistedS3 : List (String × String)
  submissions : List (String × String)
deriving DecidableEq

def lookupS3 (rows : List (String × String)) (p : String) : Option String :=
  (rows.find? (fun e => e.1 = p)).map (fun e => e.2)

def stripSlashes (s : String) : String :=
  String.mk (((s.data.dropWhile (fun c => c = '/')).reverse.dropWhile
    (fun c => c = '/')).reverse)

def pathName (p : String) : String :=
  String.mk ((p.data.reverse.takeWhile (fun c => c ≠ '/')).reverse)

/-- Lines 268-269: `key_prefix = config.s3_prefix.strip("/") if config.s3_prefix
else ""` and `key = f"{key_prefix}/{name}" if key_prefix else name`. -/
def s3Key (pfx : Option String) (dest : String) : String :=
  let kp := match pfx with
    | some pre => if pre ≠ "" then stripSlashes pre else ""
    | none => ""
  if kp ≠ "" then kp ++ "/" ++ pathName dest else pathName dest

/-- `existing_status.get(destination)` — the table is only loaded when
resume is requested (line 196). -/
def prevOf (cfg : PipeConfig) (env : PipeEnv) (destination : String) : Option StatusRow :=
  if cfg.resume then env.existingStatus destination else none

def prevSuccessB (cfg : PipeConfig) (env : PipeEnv) (destination : String) : Bool :=
  match prevOf cfg env destination with
  | some p => decide (p.status = "success")
  | none => false

def prevUploadedB (cfg : PipeConfig) (env : PipeEnv) (destination : String) : Bool :=
  match prevOf cfg env destination with
  | some p => decide (p.upload_status = "uploaded")
  | none => false

/-- Lines 212-218: the resume-from-remote-manifest inheritance branch. -/
def branchInheritB (cfg : PipeConfig) (env : PipeEnv) (st : LoopState)
    (pair : String × String) : Bool :=
  cfg.resume && cfg.s3Bucket.isSome && (lookupS3 st.s3Rows pair.2).isSome
    && !(env.localExists pair.2) && (prevOf cfg env pair.2).isNone

/-- Lines 235-238: prior success already uploaded to the requested remote. -/
def branchPriorS3B (cfg : PipeConfig) (env : PipeEnv) (destination : String) : Bool :=
  prevSuccessB cfg env destination && cfg.s3Bucket.isSome
    && prevUploadedB cfg env destination

/-- Lines 239-241: prior success, no remote target, local file present. -/
def branchPriorLocalB (cfg : PipeConfig) (env : PipeEnv) (destination : String) : Bool :=
  prevSuccessB cfg env destination && cfg.s3Bucket.isNone && env.localExists destination

/-- Line 243: the per-run processing cap. -/
def capReachedB (cfg : PipeConfig) (st : LoopState) : Bool :=
  match cfg.maxFiles with
  | some m => decide (st.processed ≥ m)
  | none => false

/-- Whether the pair falls through to the worker-processing tail of the
loop body (the only place `write_status_csv` is called inside the loop). -/
def takesProcessingPath (cfg : PipeConfig) (env : PipeEnv) (st : LoopState)
    (pair : String × String) : Bool :=
  !branchInheritB cfg env st pair && !branchPriorS3B cfg env pair.2
    && !branchPriorLocalB cfg env pair.2 && !capReachedB cfg st

/-- One iteration of the `for _, row in source_dest_df.iterrows()` loop
(pipeline.py lines 204-323). -/
def pipeStep (cfg : PipeConfig) (env : PipeEnv) (st : LoopState)
    (pair : String × String) : LoopState :=
  let source := pair.1
  let destination := pair.2
  let source_hash := stable_hash source
  if branchInheritB cfg env st pair then
    { st with rows := st.rows ++ [⟨destination, source_hash, "success", "", "",
        "uploaded", (lookupS3 st.s3Rows destination).getD "", "yes"⟩] }
  else if branchPriorS3B cfg env destination then
    { st with rows := st.rows ++ [(prevOf cfg env destination).getD defaultStatusRow] }
  else if branchPriorLocalB cfg env destination then
    { st with rows := st.rows ++ [(prevOf cfg env destination).getD defaultStatusRow] }
  else if capReachedB cfg st then st
  else
    let result : PipeWorkerResult :=
      if prevSuccessB cfg env destination then
        ⟨destination, "success", ((prevOf cfg env destination).getD defaultStatusRow).error⟩
      else env.worker source destination
    let processed' :=
      if prevSuccessB cfg env destination then st.processed else st.processed + 1
    let workerCalls' :=
      if prevSuccessB cfg env destination then st.workerCalls else st.workerCalls + 1
    let md5v := if result.status = "success"
      then (env.md5sum result.destination).getD "" else ""
    let uploadTriple : String × String × List (String × String) :=
      match cfg.s3Bucket with
      | some _ =>
        if result.status = "success" then
          match lookupS3 st.s3Rows result.destination with
          | some uri => ("uploaded", uri, st.s3Rows)
          | none =>
            let uri := env.uploader result.destination (s3Key cfg.s3Pfx result.destination)
            ("uploaded", uri, st.s3Rows ++ [(result.destination, uri)])
        else ("pending", "", st.s3Rows)
      | none => ("not_requested", "", st.s3Rows)
    let submissions' :=
      if result.status = "success" ∧ env.manifestHas source then
        st.submissions ++ [(source, result.destination)]
      else st.submissions
    let local_deleted :=
      if result.status = "success" ∧ cfg.s3Bucket.isSome ∧ cfg.keepLocal = false
        then "yes" else "no"
    let row : StatusRow := ⟨result.destination, source_hash, result.status, result.error,
      md5v, uploadTriple.1, uploadTriple.2.1, local_deleted⟩
    { rows := st.rows ++ [row]
      processed := processed'
      workerCalls := workerCalls'
      s3Rows := uploadTriple.2.2
      persisted := st.rows ++ [row]
      persistedS3 := if uploadTriple.2.2 ≠ [] then uploadTriple.2.2 else st.persistedS3
      submissions := submissions' }

def initState (cfg : PipeConfig) (env : PipeEnv) : LoopState :=
  { rows := []
    processed := 0
    workerCalls := 0
    s3Rows := if cfg.resume then env.initS3Rows else []
    persisted := env.initPersisted
    persistedS3 := env.initS3Rows
    submissions := [] }

/-- The loop followed by the final `write_status_csv` /
`write_s3_manifest` calls (lines 325, 339-341). -/
def run_pipeline_loop (cfg : PipeConfig) (env : PipeEnv)
    (pairs : List (String × String)) : LoopState :=
  let fin := pairs.foldl (pipeStep cfg env) (initState cfg env)
  { fin with
    persisted := fin.rows
    persistedS3 := if cfg.s3Bucket.isSome ∧ fin.s3Rows ≠ [] then fin.s3Rows
      else fin.persistedS3 }

/-- The trace of loop states: `pipeStates cfg env st pairs` lists the state
before handling each pair and after the last one. -/
def pipeStates (cfg : PipeConfig) (env : PipeEnv) (st : LoopState) :
    List (String × String) → List LoopState
  | [] => [st]
  | p :: ps => st :: pipeStates cfg env (pipeStep cfg env st p) ps

/-! ### Concrete SVS files used as witnesses and counterexamples

Tiny two/three-page files in the classic little-endian layout, with
`tagnosize = tagsize = offsetsize = 1` so the directory arithmetic is easy
to follow.  Non-structural bytes carry the value of their own index so
that "byte unchanged" is visible. -/

def smallMeta : TiffMeta := ⟨1, 1, 1, false⟩

/-- 40 bytes: page 0 at offset 0 (1 tag, next-IFD field at offset 2 holding
10), page 1 at offset 10 (1 tag, next-IFD field at offset 12 holding 0). -/
def wBytes : List Nat :=
  (List.range 40).map (fun i =>
    if i = 0 then 1 else if i = 2 then 10 else
    if i = 10 then 1 else if i = 12 then 0 else i)

def wPage0 : SvsPage := ⟨0, "Aperio Image Library vX", [], [], []⟩

def wPage1 : SvsPage := ⟨10, "some label image", [20], [4], [⟨30, 2⟩]⟩

def wFile : SvsFile := ⟨wBytes, [wPage0, wPage1], smallMeta⟩

/-- Same layout but no page matches the `label` slot. -/
def noMatchFile : SvsFile :=
  ⟨wBytes, [wPage0, ⟨10, "some macro image", [20], [4], [⟨30, 2⟩]⟩], smallMeta⟩

/-- A chain-corrupted variant: no IFD's next-pointer holds the target page's
offset (page 0's next-pointer byte holds 9 instead of 10). -/
def zBytes : List Nat :=
  (List.range 40).map (fun i =>
    if i = 0 then 1 else if i = 2 then 9 else
    if i = 10 then 1 else if i = 12 then 0 else i)

def zeroPredFile : SvsFile := ⟨zBytes, [wPage0, wPage1], smallMeta⟩

/-- Three pages where both page 0 (next-IFD field at offset 2) and page 2
(next-IFD field at offset 16) store the target page 1's offset 10: two
predecessors in the IFD list. -/
def tBytes : List Nat :=
  (List.range 40).map (fun i =>
    if i = 0 then 1 else if i = 2 then 10 else
    if i = 10 then 1 else if i = 12 then 14 else
    if i = 14 then 1 else if i = 16 then 10 else i)

def tPage1 : SvsPage := ⟨10, "some label image", [20], [2], [⟨30, 1⟩]⟩

def twoPredFile : SvsFile :=
  ⟨tBytes, [wPage0, tPage1, ⟨14, "overview image", [], [], []⟩], smallMeta⟩

/-- A malformed file with two pages matching the `label` slot: redacting it
raises the duplicate-associated-images error. -/
def dupLabelFile : SvsFile :=
  ⟨wBytes, [wPage0, ⟨10, "label a", [], [], []⟩, ⟨14, "label b", [], [], []⟩], smallMeta⟩

/-- An I/O oracle that injects no copy failures. -/
def wOracle : IOOracle := ⟨fun _ _ => none⟩

def wFS : FS := [("src.svs", dupLabelFile)]

def wPair : SrcDest := ⟨"src.svs", "out/dest.svs"⟩

def wOp : CopyOpEntry := initCopyOp "src.svs" dupLabelFile

/-! Concrete orchestration scenario: a fully successful prior run over two
pairs, resumed with no remote target. -/

def prior1 : StatusRow :=
  ⟨"out/d1.svs", "h1", "success", "", "m1", "not_requested", "", "no"⟩

def prior2 : StatusRow :=
  ⟨"out/d2.svs", "h2", "success", "", "m2", "not_requested", "", "no"⟩

def resumeCfg : PipeConfig := ⟨true, none, none, true, none⟩

def resumeEnv : PipeEnv :=
  { existingStatus := fun d =>
      if d = "out/d1.svs" then some prior1
      else if d = "out/d2.svs" then some prior2
      else none
    initS3Rows := []
    initPersisted := [prior1, prior2]
    localExists := fun d => d == "out/d1.svs" || d == "out/d2.svs"
    worker := fun _ d => ⟨d, "success", ""⟩
    md5sum := fun _ => some "m"
    uploader := fun _ _ => ""
    manifestHas := fun _ => false }

def resumePairs : List (String × String) :=
  [("s1.svs", "out/d1.svs"), ("s2.svs", "out/d2.svs")]

/-! Concrete manifest rows for the location-resolution claim. -/

def relRow : ManifestRow := ⟨some "rel.svs", "r1", "sp1", "st1", "id1"⟩

def absRow : ManifestRow := ⟨some "/abs/a.svs", "r2", "sp2", "st2", "id2"⟩

def emptyRow : ManifestRow := ⟨none, "r3", "sp3", "st3", "id3"⟩

def mRows : List ManifestRow := [absRow, emptyRow, relRow]

def mExists : String → Bool := fun p => p == "rel.svs"

end SvsDeid

/-! ## Theorems -/

namespace SvsDeid

/-! ### Frame lemmas for in-place writes -/

theorem length_packNatLE (v : Nat) : ∀ size : Nat, (packNatLE v size).length = size := by
  intro size
  induction size generalizing v with
  | zero => rfl
  | succ n ih => simp [packNatLE, ih]

theorem length_packNat (v size : Nat) (be : Bool) : (packNat v size be).length = size := by
  cases be <;> simp [packNat, length_packNatLE]

theorem length_writeAt (l : List Nat) (off : Nat) (bs : List Nat)
    (h : off + bs.length ≤ l.length) : (writeAt l off bs).length = l.length := by
  simp only [writeAt, List.length_append, List.length_take, List.length_drop,
    List.length_replicate]
  omega

theorem getD_writeAt_outside (l : List Nat) (off : Nat) (bs : List Nat) (i : Nat)
    (hb : off + bs.length ≤ l.length) (h : i < off ∨ off + bs.length ≤ i) :
    (writeAt l off bs).getD i 0 = l.getD i 0 := by
  have h0 : off - l.length = 0 := by omega
  have hlt : (l.take off).length = off := by
    simp only [List.length_take]; omega
  have hAB : (l.take off ++ bs).length = off + bs.length := by
    simp only [List.length_append, hlt]
  rw [writeAt, h0]
  simp only [List.replicate_zero, List.append_nil]
  rcases h with h | h
  · rw [List.getD_eq_getElem?_getD, List.getD_eq_getElem?_getD,
      List.getElem?_append_left (by rw [hAB]; omega),
      List.getElem?_append_left (by rw [hlt]; exact h), List.getElem?_take_of_lt h]
  · rw [List.getD_eq_getElem?_getD, List.getD_eq_getElem?_getD,
      List.getElem?_append_right (by rw [hAB]; omega), hAB, List.getElem?_drop]
    have hX : off + bs.length + (i - (off + bs.length)) = i := by omega
    rw [hX]

theorem length_zeroRegions (l : List Nat) (ws : List (Nat × Nat))
    (h : ∀ w ∈ ws, w.1 + w.2 ≤ l.length) : (zeroRegions l ws).length = l.length := by
  induction ws generalizing l with
  | nil => rfl
  | cons w ws ih =>
    have hw : w.1 + w.2 ≤ l.length := h w (by simp)
    have hlen : (writeAt l w.1 (List.replicate w.2 0)).length = l.length :=
      length_writeAt _ _ _ (by simpa using hw)
    calc (zeroRegions (writeAt l w.1 (List.replicate w.2 0)) ws).length
        = (writeAt l w.1 (List.replicate w.2 0)).length := by
          refine ih _ ?_
          intro v hv
          rw [hlen]
          exact h v (by simp [hv])
      _ = l.length := hlen

theorem getD_zeroRegions_outside (l : List Nat) (ws : List (Nat × Nat)) (i : Nat)
    (hb : ∀ w ∈ ws, w.1 + w.2 ≤ l.length)
    (h : ∀ w ∈ ws, i < w.1 ∨ w.1 + w.2 ≤ i) :
    (zeroRegions l ws).getD i 0 = l.getD i 0 := by
  induction ws generalizing l with
  | nil => rfl
  | cons w ws ih =>
    have hw : w.1 + w.2 ≤ l.length := hb w (by simp)
    have hlen : (writeAt l w.1 (List.replicate w.2 0)).length = l.length :=
      length_writeAt _ _ _ (by simpa using hw)
    calc (zeroRegions (writeAt l w.1 (List.replicate w.2 0)) ws).getD i 0
        = (writeAt l w.1 (List.replicate w.2 0)).getD i 0 := by
          refine ih _ ?_ ?_
          · intro v hv; rw [hlen]; exact hb v (by simp [hv])
          · intro v hv; exact h v (by simp [hv])
      _ = l.getD i 0 :=
          getD_writeAt_outside _ _ _ _ (by simpa using hw) (by simpa using h w (by simp))

/-- Reduction of `delete_associated_image` on the unique-match, predecessor-found
path to the pure byte surgery `redactBytes`. -/
theorem delete_associated_image_eq_redact (f : SvsFile) (imageType : String)
    (page : SvsPage) (pifd prev : IFD) (rest : List IFD)
    (hty : imageType ∈ (["label", "macro"] : List String))
    (hsel : selectPages f imageType = .ok [page])
    (hp : pageIFD f page = some pifd)
    (hv : predIFDs f page = prev :: rest) :
    delete_associated_image f imageType = ⟨.ok (), redactBytes f page pifd prev, true, true⟩ := by
  simp [delete_associated_image, hty, hsel, hp, hv]

/-- C1: when exactly one page matches the requested slot (and the chain
surgery succeeds), `delete_associated_image` performs only in-place
overwrites: the byte length is preserved, and every byte outside the
removed page's strip ranges, tag-value ranges, IFD-header range and the
predecessor's next-pointer field is unchanged.  The bounds hypotheses say
the parsed ranges lie inside the file, as they do for any well-formed
SVS file. -/
theorem delete_associated_image_preserves_survivors (f : SvsFile) (imageType : String)
    (page : SvsPage) (pifd prev : IFD) (rest : List IFD)
    (hty : imageType ∈ (["label", "macro"] : List String))
    (hsel : selectPages f imageType = .ok [page])
    (hp : pageIFD f page = some pifd)
    (hv : predIFDs f page = prev :: rest)
    (hstrips : ∀ w ∈ page.stripOffsets.zip page.stripByteCounts, w.1 + w.2 ≤ f.bytes.length)
    (htags : ∀ t ∈ page.tags, t.valueoffset + t.count ≤ f.bytes.length)
    (hhdr : pifd.this + ((pifd.next_ifd_offset - pifd.this) + f.meta.offsetsize)
        ≤ f.bytes.length)
    (hprev : prev.next_ifd_offset + f.meta.offsetsize ≤ f.bytes.length) :
    (delete_associated_image f imageType).result = .ok () ∧
    (delete_associated_image f imageType).bytes.length = f.bytes.length ∧
    ∀ i : Nat,
      (∀ w ∈ page.stripOffsets.zip page.stripByteCounts, i < w.1 ∨ w.1 + w.2 ≤ i) →
      (∀ t ∈ page.tags, i < t.valueoffset ∨ t.valueoffset + t.count ≤ i) →
      (i < pifd.this ∨
        pifd.this + ((pifd.next_ifd_offset - pifd.this) + f.meta.offsetsize) ≤ i) →
      (i < prev.next_ifd_offset ∨ prev.next_ifd_offset + f.meta.offsetsize ≤ i) →
      (delete_associated_image f imageType).bytes.getD i 0 = f.bytes.getD i 0 := by
  rw [delete_associated_image_eq_redact f imageType page pifd prev rest hty hsel hp hv]
  refine ⟨rfl, ?_, ?_⟩ <;> rw [redactBytes]
  · -- length preservation, innermost write outwards
    have h1 : (zeroRegions f.bytes (page.stripOffsets.zip page.stripByteCounts)).length
        = f.bytes.length := length_zeroRegions _ _ hstrips
    have htags' : ∀ w ∈ page.tags.map (fun t => (t.valueoffset, t.count)),
        w.1 + w.2 ≤ f.bytes.length := by
      intro w hw
      rcases List.mem_map.1 hw with ⟨t, ht, hteq⟩
      subst hteq
      exact htags t ht
    have h2 : (zeroRegions (zeroRegions f.bytes (page.stripOffsets.zip page.stripByteCounts))
        (page.tags.map (fun t => (t.valueoffset, t.count)))).length = f.bytes.length := by
      rw [length_zeroRegions _ _ (by rw [h1]; exact htags'), h1]
    have h3 := length_writeAt
      (zeroRegions (zeroRegions f.bytes (page.stripOffsets.zip page.stripByteCounts))
        (page.tags.map (fun t => (t.valueoffset, t.count))))
      pifd.this
      (List.replicate ((pifd.next_ifd_offset - pifd.this) + f.meta.offsetsize) 0)
      (by rw [h2]; simpa using hhdr)
    rw [length_writeAt _ _ _ (by rw [h3, h2, length_packNat]; exact hprev), h3, h2]
  · intro i histrip hitag hihdr hiprev
    have h1 : (zeroRegions f.bytes (page.stripOffsets.zip page.stripByteCounts)).length
        = f.bytes.length := length_zeroRegions _ _ hstrips
    have htags' : ∀ w ∈ page.tags.map (fun t => (t.valueoffset, t.count)),
        w.1 + w.2 ≤ f.bytes.length := by
      intro w hw
      rcases List.mem_map.1 hw with ⟨t, ht, hteq⟩
      subst hteq
      exact htags t ht
    have hitag' : ∀ w ∈ page.tags.map (fun t => (t.valueoffset, t.count)),
        i < w.1 ∨ w.1 + w.2 ≤ i := by
      intro w hw
      rcases List.mem_map.1 hw with ⟨t, ht, hteq⟩
      subst hteq
      exact hitag t ht
    have h2 : (zeroRegions (zeroRegions f.bytes (page.stripOffsets.zip page.stripByteCounts))
        (page.tags.map (fun t => (t.valueoffset, t.count)))).length = f.bytes.length := by
      rw [length_zeroRegions _ _ (by rw [h1]; exact htags'), h1]
    have h3 := length_writeAt
      (zeroRegions (zeroRegions f.bytes (page.stripOffsets.zip page.stripByteCounts))
        (page.tags.map (fun t => (t.valueoffset, t.count))))
      pifd.this
      (List.replicate ((pifd.next_ifd_offset - pifd.this) + f.meta.offsetsize) 0)
      (by rw [h2]; simpa using hhdr)
    rw [getD_writeAt_outside _ _ _ _ (by rw [h3, length_packNat]; rw [h2]; exact hprev)
        (by rw [length_packNat]; exact hiprev),
      getD_writeAt_outside _ _ _ _ (by rw [h2]; simpa using hhdr) (by simpa using hihdr),
      getD_zeroRegions_outside _ _ _ (by rw [h1]; exact htags') hitag',
      getD_zeroRegions_outside _ _ _ hstrips histrip]

/-- C3: when zero pages match the requested slot, the call returns normally
without writing a single byte. -/
theorem delete_associated_image_no_match_noop (f : SvsFile) (imageType : String)
    (hty : imageType ∈ (["label", "macro"] : List String))
    (hsel : selectPages f imageType = .ok []) :
    (delete_associated_image f imageType).result = .ok () ∧
    (delete_associated_image f imageType).bytes = f.bytes := by
  simp [delete_associated_image, hty, hsel]

/-- Witness for C1 at the concrete two-page file `wFile`. -/
theorem delete_associated_image_preserves_survivors_witness :
    (delete_associated_image wFile "label").result = .ok () ∧
    (delete_associated_image wFile "label").bytes.length = wFile.bytes.length ∧
    (delete_associated_image wFile "label").bytes.getD 25 0 = wFile.bytes.getD 25 0 := by
  have h := delete_associated_image_preserves_survivors wFile "label" wPage1
    ⟨10, 12, 0⟩ ⟨0, 2, 10⟩ [] (by decide) (by decide) (by decide) (by decide)
    (by decide) (by decide) (by decide) (by decide)
  exact ⟨h.1, h.2.1, h.2.2 25 (by decide) (by decide) (by decide) (by decide)⟩

/-- Witness for C3 at the concrete file `noMatchFile`, which has no page
matching the `label` slot. -/
theorem delete_associated_image_no_match_noop_witness :
    (delete_associated_image noMatchFile "label").result = .ok () ∧
    (delete_associated_image noMatchFile "label").bytes = noMatchFile.bytes :=
  delete_associated_image_no_match_noop noMatchFile "label" (by decide) (by decide)

/-! ### Filesystem lemmas and `copy_and_strip` cleanup (C6, C10) -/

theorem append_left_ne_empty (s t : String) (hs : s.length ≠ 0) : s ++ t ≠ "" := by
  intro h
  have hlen := congrArg String.length h
  rw [String.length_append] at hlen
  have h0 : ("" : String).length = 0 := rfl
  rw [h0] at hlen
  omega

theorem errno2_ne_empty (p : String) :
    ("[Errno 2] No such file or directory: " ++ p) ≠ "" :=
  append_left_ne_empty _ _ (by decide)

theorem selectPages_error (f : SvsFile) (ty m : String)
    (h : selectPages f ty = .error m) : m = "IndexError: list index out of range" := by
  unfold selectPages at h
  split at h
  · exact (Except.error.inj h).symm
  · split at h
    · cases h
    · split at h
      · split at h
        · split at h
          · exact (Except.error.inj h).symm
          · cases h
        · cases h
      · cases h

/-- Every exception `delete_associated_image` can raise carries a nonempty
message. -/
theorem delete_associated_image_error_ne_empty (f : SvsFile) (ty m : String)
    (h : (delete_associated_image f ty).result = .error m) : m ≠ "" := by
  by_cases hty : ty ∈ (["label", "macro"] : List String)
  · rcases hsel : selectPages f ty with m' | filtered
    · have hred : (delete_associated_image f ty).result = .error m' := by
        simp [delete_associated_image, hty, hsel]
      rw [hred] at h
      have hm : m = m' := (Except.error.inj h).symm
      rw [hm, selectPages_error f ty m' hsel]
      decide
    · by_cases hlen : filtered.length > 1
      · have hred : (delete_associated_image f ty).result
            = .error ("Invalid SVS format: duplicate associated " ++ ty
              ++ " images found") := by
          simp [delete_associated_image, hty, hsel, hlen]
        rw [hred] at h
        rw [(Except.error.inj h).symm]
        refine append_left_ne_empty _ _ ?_
        rw [String.length_append]
        have h41 : ("Invalid SVS format: duplicate associated " : String).length = 41 := by
          decide
        omega
      · rcases hfilt : filtered with _ | ⟨page, frest⟩
        · have hred : (delete_associated_image f ty).result = .ok () := by
            simp [delete_associated_image, hty, hsel, hfilt]
          rw [hred] at h
          cases h
        · subst hfilt
          have hfrest : frest = [] := by
            cases frest with
            | nil => rfl
            | cons a l => exfalso; simp [List.length_cons] at hlen
          subst hfrest
          rcases hpi : pageIFD f page with _ | pifd
          · have hred : (delete_associated_image f ty).result
                = .error "IndexError: list index out of range" := by
              simp [delete_associated_image, hty, hsel, hlen, hpi]
            rw [hred] at h
            rw [(Except.error.inj h).symm]
            decide
          · rcases hpv : predIFDs f page with _ | ⟨prev, rest2⟩
            · have hred : (delete_associated_image f ty).result
                  = .error "No page points to this one" := by
                simp [delete_associated_image, hty, hsel, hlen, hpi, hpv]
              rw [hred] at h
              rw [(Except.error.inj h).symm]
              decide
            · have hred : (delete_associated_image f ty).result = .ok () := by
                simp [delete_associated_image, hty, hsel, hlen, hpi, hpv]
              rw [hred] at h
              cases h
  · have hred : (delete_associated_image f ty).result
        = .error "Invalid image type requested for deletion" := by
      simp [delete_associated_image, hty]
    rw [hred] at h
    rw [(Except.error.inj h).symm]
    decide

theorem fsLookup_fsAdd (fs : FS) (p : String) (c : SvsFile) :
    fsLookup (fsAdd fs p c) p = some c := by
  simp [fsLookup, fsAdd, List.find?_cons]

theorem keys_ne_of_lookup_none (fs : FS) (p : String) (hp : fsLookup fs p = none) :
    ∀ e ∈ fs, e.1 ≠ p := by
  intro e he
  have hfind : fs.find? (fun e => e.1 = p) = none := by
    rcases hf : fs.find? (fun e => e.1 = p) with _ | v
    · exact hf
    · rw [fsLookup, hf] at hp
      cases hp
  have := List.find?_eq_none.1 hfind e he
  simpa using this

theorem fsLookup_eq_none_of_not_mem (fs : FS) (p : String) (hp : p ∉ fsKeys fs) :
    fsLookup fs p = none := by
  rw [fsLookup]
  have hfind : fs.find? (fun e => e.1 = p) = none := by
    rw [List.find?_eq_none]
    intro e he hpe
    exact hp (by
      simp only [fsKeys, List.mem_map]
      exact ⟨e, he, by simpa using hpe⟩)
  rw [hfind]
  rfl

theorem fsRemove_eq_self (fs : FS) (p : String) (hp : fsLookup fs p = none) :
    fsRemove fs p = fs := by
  unfold fsRemove
  rw [List.filter_eq_self]
  intro e he
  simpa using keys_ne_of_lookup_none fs p hp e he

theorem fsRemove_fsAdd (fs : FS) (p : String) (c : SvsFile) (hp : fsLookup fs p = none) :
    fsRemove (fsAdd fs p c) p = fs := by
  unfold fsRemove fsAdd
  rw [List.filter_cons_of_neg (by simp)]
  exact fsRemove_eq_self fs p hp

theorem fsSet_eq_of_lookup_none (fs : FS) (p : String) (c : SvsFile)
    (hp : fsLookup fs p = none) : fsSet fs p c = fs := by
  unfold fsSet
  have : ∀ e ∈ fs, (if e.1 = p then (p, c) else e) = id e := by
    intro e he
    rw [if_neg (keys_ne_of_lookup_none fs p hp e he)]
    rfl
  rw [List.map_congr_left this, List.map_id]

theorem fsRemove_fsSet_fsAdd (fs : FS) (p : String) (c c1 : SvsFile)
    (hp : fsLookup fs p = none) : fsRemove (fsSet (fsAdd fs p c) p c1) p = fs := by
  have h1 : fsSet (fsAdd fs p c) p c1 = fsAdd fs p c1 := by
    unfold fsSet fsAdd
    rw [List.map_cons, if_pos rfl]
    congr 1
    exact fsSet_eq_of_lookup_none fs p c1 hp
  rw [h1]
  exact fsRemove_fsAdd fs p c1 hp

/-- A failing `deleteOnFS` leaves the filesystem unchanged (every raise in
`delete_associated_image` happens before its first write) and carries a
nonempty message. -/
theorem deleteOnFS_error (fs : FS) (p ty m : String) (fs' : FS)
    (h : deleteOnFS fs p ty = (some m, fs')) : fs' = fs ∧ m ≠ "" := by
  rcases hl : fsLookup fs p with _ | c
  · simp only [deleteOnFS, hl, Prod.mk.injEq, Option.some.injEq] at h
    exact ⟨h.2.symm, h.1 ▸ errno2_ne_empty p⟩
  · rcases hr : (delete_associated_image c ty).result with m2 | u
    · simp only [deleteOnFS, hl, hr, Prod.mk.injEq, Option.some.injEq] at h
      exact ⟨h.2.symm, h.1 ▸ delete_associated_image_error_ne_empty c ty m2 hr⟩
    · simp only [deleteOnFS, hl, hr, Prod.mk.injEq] at h
      exact absurd h.1 (by simp)

/-- A successful `deleteOnFS` only rewrites the bytes stored at `p`. -/
theorem deleteOnFS_ok (fs : FS) (p ty : String) (fs' : FS)
    (h : deleteOnFS fs p ty = (none, fs')) : ∃ c1, fs' = fsSet fs p c1 := by
  rcases hl : fsLookup fs p with _ | c
  · simp only [deleteOnFS, hl, Prod.mk.injEq] at h
    exact absurd h.1 (by simp)
  · rcases hr : (delete_associated_image c ty).result with m2 | u
    · simp only [deleteOnFS, hl, hr, Prod.mk.injEq] at h
      exact absurd h.1 (by simp)
    · simp only [deleteOnFS, hl, hr, Prod.mk.injEq] at h
      exact ⟨_, h.2.symm⟩

/-- The three possible shapes of a `redactPhase` run. -/
theorem redactPhase_characterize (fsIn : FS) (d : String) (op : CopyOpEntry) :
    (∃ msg, msg ≠ "" ∧
      redactPhase fsIn d op
        = (fsRemove fsIn d,
           { op with failed := true, failure_message := msg, done := true })) ∨
    (∃ msg c1, msg ≠ "" ∧
      redactPhase fsIn d op
        = (fsRemove (fsSet fsIn d c1) d,
           { op with failed := true, failure_message := msg, done := true })) ∨
    (∃ fs2, redactPhase fsIn d op = (fs2, { op with done := true })) := by
  rcases h1 : deleteOnFS fsIn d "label" with ⟨m1, fs1⟩
  rcases m1 with _ | msg
  · obtain ⟨c1, hfs1⟩ := deleteOnFS_ok _ _ _ _ h1
    rcases h2 : deleteOnFS fs1 d "macro" with ⟨m2, fs2⟩
    rcases m2 with _ | msg2
    · right; right
      exact ⟨fs2, by simp only [redactPhase, h1, h2]⟩
    · obtain ⟨hfs2, hne2⟩ := deleteOnFS_error _ _ _ _ _ h2
      right; left
      refine ⟨msg2, c1, hne2, ?_⟩
      simp only [redactPhase, h1, h2, onFail]
      rw [hfs2, hfs1]
  · obtain ⟨hfs1, hne1⟩ := deleteOnFS_error _ _ _ _ _ h1
    left
    refine ⟨msg, hne1, ?_⟩
    simp only [redactPhase, h1, onFail]
    rw [hfs1]

/-- The two possible shapes of a `copyRedact` run on a fresh destination:
either everything succeeded (the progress entry's failure fields are
untouched), or it failed, the message is nonempty, and the filesystem is
exactly as before the call. -/
theorem copyRedact_spec (o : IOOracle) (src dst : String) (op : CopyOpEntry) (fs : FS)
    (hmsg : ∀ s d info, o.copyErr s d = some info → info.msg ≠ "")
    (hfree : fsLookup fs dst = none) :
    (copyRedact o src dst op fs).2.dest = op.dest ∧
    (copyRedact o src dst op fs).2.source = op.source ∧
    (((copyRedact o src dst op fs).2.failed = op.failed ∧
      (copyRedact o src dst op fs).2.failure_message = op.failure_message) ∨
     ((copyRedact o src dst op fs).2.failed = true ∧
      (copyRedact o src dst op fs).2.failure_message ≠ "" ∧
      (copyRedact o src dst op fs).1 = fs)) := by
  rcases hsrc : fsLookup fs src with _ | csrc
  · have hcf : copyfile o fs src dst
        = (some ("[Errno 2] No such file or directory: " ++ src), fs) := by
      simp only [copyfile, hsrc]
    have hred : copyRedact o src dst op fs
        = onFail fs dst op ("[Errno 2] No such file or directory: " ++ src) := by
      rw [copyRedact, hcf]
    rw [hred, onFail, fsRemove_eq_self fs dst hfree]
    exact ⟨rfl, rfl, Or.inr ⟨rfl, errno2_ne_empty src, rfl⟩⟩
  · rcases herr : o.copyErr src dst with _ | info
    · -- copy succeeds; the filesystem is fs with the copy added
      have hcf : copyfile o fs src dst = (none, fsAdd fs dst csrc) := by
        simp only [copyfile, hsrc, herr]
      have hred : copyRedact o src dst op fs = redactPhase (fsAdd fs dst csrc) dst op := by
        rw [copyRedact, hcf]
      rcases redactPhase_characterize (fsAdd fs dst csrc) dst op with
        ⟨msg, hne, heq⟩ | ⟨msg, c1, hne, heq⟩ | ⟨fs2, heq⟩
      · rw [hred, heq]
        exact ⟨rfl, rfl, Or.inr ⟨rfl, hne, fsRemove_fsAdd fs dst csrc hfree⟩⟩
      · rw [hred, heq]
        exact ⟨rfl, rfl, Or.inr ⟨rfl, hne, fsRemove_fsSet_fsAdd fs dst csrc c1 hfree⟩⟩
      · rw [hred, heq]
        exact ⟨rfl, rfl, Or.inl ⟨rfl, rfl⟩⟩
    · have hne := hmsg _ _ _ herr
      rcases hpc : info.partialContent with _ | pc
      · have hcf : copyfile o fs src dst = (some info.msg, fs) := by
          simp only [copyfile, hsrc, herr, hpc]
        have hred : copyRedact o src dst op fs = onFail fs dst op info.msg := by
          rw [copyRedact, hcf]
        rw [hred, onFail, fsRemove_eq_self fs dst hfree]
        exact ⟨rfl, rfl, Or.inr ⟨rfl, hne, rfl⟩⟩
      · have hcf : copyfile o fs src dst = (some info.msg, fsAdd fs dst pc) := by
          simp only [copyfile, hsrc, herr, hpc]
        have hred : copyRedact o src dst op fs = onFail (fsAdd fs dst pc) dst op info.msg := by
          rw [copyRedact, hcf]
        rw [hred, onFail, fsRemove_fsAdd fs dst pc hfree]
        exact ⟨rfl, rfl, Or.inr ⟨rfl, hne, rfl⟩⟩

/-- Full characterization of `copy_and_strip`: the destination actually
used is recorded, it did not exist beforehand, and the run either
succeeded with the failure fields untouched or failed leaving the
filesystem exactly as it was. -/
theorem copy_and_strip_spec (o : IOOracle) (file : SrcDest) (op : CopyOpEntry) (fs : FS)
    (hmsg : ∀ s d info, o.copyErr s d = some info → info.msg ≠ "") :
    ∃ d : String, fsLookup fs d = none ∧
      (copy_and_strip o file op fs).2.dest = some d ∧
      (copy_and_strip o file op fs).2.source = op.source ∧
      (((copy_and_strip o file op fs).2.failed = op.failed ∧
        (copy_and_strip o file op fs).2.failure_message = op.failure_message) ∨
       ((copy_and_strip o file op fs).2.failed = true ∧
        (copy_and_strip o file op fs).2.failure_message ≠ "" ∧
        (copy_and_strip o file op fs).1 = fs)) := by
  rcases hl : fsLookup fs file.dest with _ | cdst
  · have hcs : copy_and_strip o file op fs
        = copyRedact o file.source file.dest { op with dest := some file.dest } fs := by
      rw [copy_and_strip, hl]
    obtain ⟨hdest, hsource, hrest⟩ :=
      copyRedact_spec o file.source file.dest { op with dest := some file.dest } fs hmsg hl
    exact ⟨file.dest, hl, by rw [hcs]; exact hdest, by rw [hcs]; exact hsource,
      by rw [hcs]; exact hrest⟩
  · have hspec := Nat.find_spec
      (exists_free_candidate (fsKeys fs) (splitExt file.dest).1 (splitExt file.dest).2)
    have hfree : fsLookup fs
        (candidateName (splitExt file.dest).1 (splitExt file.dest).2
          (findFree (fsKeys fs) (splitExt file.dest).1 (splitExt file.dest).2)) = none :=
      fsLookup_eq_none_of_not_mem _ _ hspec.2
    have hcs : copy_and_strip o file op fs
        = copyRedact o file.source
            (candidateName (splitExt file.dest).1 (splitExt file.dest).2
              (findFree (fsKeys fs) (splitExt file.dest).1 (splitExt file.dest).2))
            { op with
              dest := some (candidateName (splitExt file.dest).1 (splitExt file.dest).2
                (findFree (fsKeys fs) (splitExt file.dest).1 (splitExt file.dest).2)),
              renamed := true } fs := by
      rw [copy_and_strip, hl]
    obtain ⟨hdest, hsource, hrest⟩ := copyRedact_spec o file.source _ _ fs hmsg hfree
    exact ⟨_, hfree, by rw [hcs]; exact hdest, by rw [hcs]; exact hsource,
      by rw [hcs]; exact hrest⟩

/-- C6: whenever `copy_and_strip` fails at any point, the destination file
actually written (the original name or the `name(ii)`-suffixed one, as
recorded in the progress entry's `dest`) is deleted before the function
returns, the failure is recorded with a nonempty exception text, and the
filesystem is exactly as it was before the call: no half-redacted file
remains on disk. -/
theorem copy_and_strip_failure_cleanup (o : IOOracle) (file : SrcDest) (op : CopyOpEntry)
    (fs : FS)
    (hmsg : ∀ s d info, o.copyErr s d = some info → info.msg ≠ "")
    (hop : op.failed = false)
    (hfail : (copy_and_strip o file op fs).2.failed = true) :
    (copy_and_strip o file op fs).1 = fs ∧
    (copy_and_strip o file op fs).2.failure_message ≠ "" ∧
    ∀ d, (copy_and_strip o file op fs).2.dest = some d →
      fsLookup ((copy_and_strip o file op fs).1) d = none := by
  obtain ⟨d, hfree, hdest, hsrc, hrest⟩ := copy_and_strip_spec o file op fs hmsg
  rcases hrest with ⟨hf, _⟩ | ⟨_, hne, hfs⟩
  · rw [hfail, hop] at hf
    exact absurd hf (by simp)
  · refine ⟨hfs, hne, ?_⟩
    intro d' hd'
    rw [hdest] at hd'
    rw [(Option.some.inj hd').symm, hfs]
    exact hfree

/-- Witness for C6: a source file with duplicate label pages makes the
redaction step raise after the copy; the destination is removed and the
filesystem is restored. -/
theorem copy_and_strip_failure_cleanup_witness :
    (copy_and_strip wOracle wPair wOp wFS).1 = wFS ∧
    (copy_and_strip wOracle wPair wOp wFS).2.failure_message ≠ "" := by
  have h := copy_and_strip_failure_cleanup wOracle wPair wOp wFS
    (by intro s d info hinfo; simp [wOracle] at hinfo) rfl (by decide)
  exact ⟨h.1, h.2.1⟩

/-- C10: with `fail_fast = False`, `deidentify_one` is total: it never
propagates an exception, it returns a record whose `status` is exactly
`success` or `failed`, whose `error` is nonempty whenever the status is
`failed`, and whose `destination` is the requested destination or the
destination actually used by the worker. -/
theorem deidentify_one_total (o : IOOracle) (fs : FS) (source destination : String)
    (hmsg : ∀ s d info, o.copyErr s d = some info → info.msg ≠ "") :
    ∃ fs' res, deidentify_one o fs source destination false = .ok (fs', res) ∧
      (res.status = "success" ∨ res.status = "failed") ∧
      (res.status = "failed" → res.error ≠ "") ∧
      (res.destination = destination ∨
        ∃ c, fsLookup fs source = some c ∧
          ∃ d, (copy_and_strip o ⟨source, destination⟩ (initCopyOp source c) fs).2.dest
              = some d ∧ res.destination = d) := by
  rcases hsrc : fsLookup fs source with _ | c
  · refine ⟨fs, ⟨destination, "failed",
      "[Errno 2] No such file or directory: " ++ source⟩, ?_, ?_, ?_, ?_⟩
    · simp [deidentify_one, hsrc]
    · right; rfl
    · intro _
      exact errno2_ne_empty source
    · left; rfl
  · obtain ⟨d, hfree, hdest, hsrc2, hrest⟩ :=
      copy_and_strip_spec o ⟨source, destination⟩ (initCopyOp source c) fs hmsg
    have hred : deidentify_one o fs source destination false
        = .ok ((copy_and_strip o ⟨source, destination⟩ (initCopyOp source c) fs).1,
            ⟨pyOr (copy_and_strip o ⟨source, destination⟩ (initCopyOp source c) fs).2.dest
                destination,
             if (copy_and_strip o ⟨source, destination⟩ (initCopyOp source c) fs).2.failed
               then "failed" else "success",
             (copy_and_strip o ⟨source, destination⟩
               (initCopyOp source c) fs).2.failure_message⟩) := by
      simp [deidentify_one, hsrc]
    refine ⟨_, _, hred, ?_, ?_, ?_⟩
    · by_cases hf : (copy_and_strip o ⟨source, destination⟩ (initCopyOp source c) fs).2.failed
        <;> simp [hf]
    · intro hst
      by_cases hf : (copy_and_strip o ⟨source, destination⟩ (initCopyOp source c) fs).2.failed
      · rcases hrest with ⟨hf2, _⟩ | ⟨_, hne, _⟩
        · rw [hf] at hf2
          exact absurd hf2.symm (by simp [initCopyOp])
        · exact hne
      · simp only [hf, if_false] at hst
        exact absurd hst (by simp)
    · by_cases hd0 : d = ""
      · left
        simp [pyOr, hdest, hd0]
      · right
        exact ⟨c, by simp [hsrc], d, hdest, by simp [pyOr, hdest, hd0]⟩

/-- Witness for C10 at a nonexistent source path. -/
theorem deidentify_one_total_witness :
    ∃ fs' res, deidentify_one wOracle [] "missing.svs" "dst.svs" false = .ok (fs', res) ∧
      (res.status = "success" ∨ res.status = "failed") ∧
      (res.status = "failed" → res.error ≠ "") := by
  obtain ⟨fs', res, heq, hs, he, _⟩ := deidentify_one_total wOracle [] "missing.svs" "dst.svs"
    (by intro s d info hinfo; simp [wOracle] at hinfo)
  exact ⟨fs', res, heq, hs, he⟩

/-! ### Destination-path derivation (C2) -/

theorem hexDigitChar_mem (n : Nat) : hexDigitChar n ∈ hexDigits := by
  unfold hexDigitChar
  by_cases h : n < hexDigits.length
  · rw [List.getD_eq_getElem _ _ h]
    exact List.getElem_mem h
  · rw [List.getD_eq_default _ _ (by omega)]
    decide

theorem length_data_hexOfBytes (bs : List Nat) :
    (hexOfBytes bs).data.length = 2 * bs.length := by
  induction bs with
  | nil => rfl
  | cons b bs ih =>
    show (hexDigitChar (b / 16) :: hexDigitChar (b % 16) :: (hexOfBytes bs).data).length
      = 2 * (b :: bs).length
    simp only [List.length_cons, ih]
    omega

theorem mem_data_hexOfBytes (bs : List Nat) (c : Char) (hc : c ∈ (hexOfBytes bs).data) :
    c ∈ hexDigits := by
  induction bs with
  | nil => simp [hexOfBytes] at hc
  | cons b bs ih =>
    have hc' : c ∈ hexDigitChar (b / 16) :: hexDigitChar (b % 16) :: (hexOfBytes bs).data := hc
    rcases List.mem_cons.1 hc' with h | h
    · exact h ▸ hexDigitChar_mem _
    · rcases List.mem_cons.1 h with h2 | h2
      · exact h2 ▸ hexDigitChar_mem _
      · exact ih h2

theorem length_sha256Bytes (msg : List Nat) : (sha256Bytes msg).length = 32 := by
  simp [sha256Bytes, length_packNat]

theorem data_length_stable_hash (v : String) : (stable_hash v).data.length = 64 := by
  rw [stable_hash, length_data_hexOfBytes, length_sha256Bytes]

/-- C2: `destination_basename` is a deterministic function of
`(rid, specnum_formatted)`; two basenames coincide exactly when the
16-character truncations of the underlying stable hashes coincide (so
differing rows give differing basenames except on truncation collision);
and the middle piece really is 16 hex characters of the hash. -/
theorem destination_basename_deterministic (r1 r2 : RowKey) :
    (r1.rid = r2.rid → r1.specnum_formatted = r2.specnum_formatted →
      destination_basename r1 = destination_basename r2) ∧
    (destination_basename r1 = destination_basename r2 ↔
      (stable_hash (r1.rid ++ "|" ++ r1.specnum_formatted)).take 16
        = (stable_hash (r2.rid ++ "|" ++ r2.specnum_formatted)).take 16) ∧
    ((stable_hash (r1.rid ++ "|" ++ r1.specnum_formatted)).take 16).data.length = 16 ∧
    ∀ c ∈ ((stable_hash (r1.rid ++ "|" ++ r1.specnum_formatted)).take 16).data,
      c ∈ hexDigits := by
  refine ⟨?_, ⟨?_, ?_⟩, ?_, ?_⟩
  · intro h1 h2
    rw [destination_basename, destination_basename, h1, h2]
  · intro h
    have hd := congrArg String.data h
    simp only [destination_basename, String.data_append] at hd
    exact String.ext (List.append_cancel_left (List.append_cancel_right hd))
  · intro h
    rw [destination_basename, destination_basename, h]
  · rw [String.data_take, List.length_take, data_length_stable_hash]
    decide
  · intro c hc
    rw [String.data_take] at hc
    exact mem_data_hexOfBytes _ c (List.take_subset _ _ hc)

set_option maxRecDepth 10000 in
/-- Witness for C2: determinism at equal concrete rows, and a concrete pair
of rows whose truncated hashes differ, hence whose basenames differ. -/
theorem destination_basename_deterministic_witness :
    destination_basename ⟨"RID001", "SPEC001"⟩ = destination_basename ⟨"RID001", "SPEC001"⟩ ∧
    destination_basename ⟨"RID001", "SPEC001"⟩ ≠ destination_basename ⟨"RID002", "SPEC001"⟩ := by
  constructor
  · exact (destination_basename_deterministic ⟨"RID001", "SPEC001"⟩
      ⟨"RID001", "SPEC001"⟩).1 rfl rfl
  · intro h
    have h16 := (destination_basename_deterministic ⟨"RID001", "SPEC001"⟩
      ⟨"RID002", "SPEC001"⟩).2.1.mp h
    have hd := congrArg String.data h16
    rw [String.data_take, String.data_take] at hd
    exact absurd hd (by decide)

/-- C4 (amended): after a unique target page is identified, the
zero-predecessor case raises the chain-corruption error before any byte of
the file is modified; when one or more predecessors exist the operation
does not raise and splices using the first predecessor in IFD order. -/
theorem delete_associated_image_predecessor_check (f : SvsFile) (imageType : String)
    (page : SvsPage) (pifd : IFD)
    (hty : imageType ∈ (["label", "macro"] : List String))
    (hsel : selectPages f imageType = .ok [page])
    (hp : pageIFD f page = some pifd) :
    (predIFDs f page = [] →
      delete_associated_image f imageType
        = ⟨.error "No page points to this one", f.bytes, true, false⟩) ∧
    (∀ prev rest, predIFDs f page = prev :: rest →
      delete_associated_image f imageType
        = ⟨.ok (), redactBytes f page pifd prev, true, true⟩) := by
  constructor
  · intro hv
    simp [delete_associated_image, hty, hsel, hp, hv]
  · intro prev rest hv
    exact delete_associated_image_eq_redact f imageType page pifd prev rest hty hsel hp hv

/-- Counterexample to C4 as stated: in `twoPredFile` two IFDs (page 0 and
page 2) both store the target page's offset, yet the call returns
normally, rewrites the first predecessor's pointer field (byte 2 becomes
14, the target's former next-pointer value) and leaves the second
predecessor's pointer field untouched (byte 16 still 10): the duplicate
case is silently resolved in favor of the first predecessor. -/
theorem delete_associated_image_two_predecessors_silent :
    (predIFDs twoPredFile tPage1).length = 2 ∧
    (delete_associated_image twoPredFile "label").result = .ok () ∧
    (delete_associated_image twoPredFile "label").bytes.getD 2 0 = 14 ∧
    (delete_associated_image twoPredFile "label").bytes.getD 16 0 = 10 := by
  decide

/-- Witness for the amended C4 at the concrete chain-corrupted file
`zeroPredFile`: the error is raised and the bytes are untouched. -/
theorem delete_associated_image_predecessor_check_witness :
    delete_associated_image zeroPredFile "label"
      = ⟨.error "No page points to this one", zeroPredFile.bytes, true, false⟩ :=
  (delete_associated_image_predecessor_check zeroPredFile "label" wPage1 ⟨10, 12, 0⟩
    (by decide) (by decide) (by decide)).1 (by decide)

/-- C5 (code bug): the file handle opened by `delete_associated_image` is
not closed on the zero-matching-pages early return (deidentification.py
line 274) nor on the no-predecessor raise (line 309): both exit paths
leave `fp` open, contradicting the handle-ownership requirement. -/
theorem delete_associated_image_leaks_handle :
    (delete_associated_image noMatchFile "label").result = .ok () ∧
    (delete_associated_image noMatchFile "label").opened = true ∧
    (delete_associated_image noMatchFile "label").closed = false ∧
    (delete_associated_image zeroPredFile "label").result
      = .error "No page points to this one" ∧
    (delete_associated_image zeroPredFile "label").opened = true ∧
    (delete_associated_image zeroPredFile "label").closed = false := by
  decide

/-! ### Orchestration loop (C7, C8) -/

/-- A pair with a prior `success` record, no remote target and a present
local file is short-circuited: the prior row is appended verbatim and
nothing else in the state changes. -/
theorem pipeStep_short_circuit (cfg : PipeConfig) (env : PipeEnv) (st : LoopState)
    (pair : String × String)
    (hres : cfg.resume = true) (hs3 : cfg.s3Bucket = none)
    (hprev : (env.existingStatus pair.2).isSome ∧
      ((env.existingStatus pair.2).getD defaultStatusRow).status = "success")
    (hloc : env.localExists pair.2 = true) :
    pipeStep cfg env st pair
      = { st with rows := st.rows ++ [(env.existingStatus pair.2).getD defaultStatusRow] } := by
  have hprevOf : prevOf cfg env pair.2 = env.existingStatus pair.2 := by
    rw [prevOf, hres]
    simp
  obtain ⟨p, hp⟩ := Option.isSome_iff_exists.1 hprev.1
  have hpd : (env.existingStatus pair.2).getD defaultStatusRow = p := by
    rw [hp]
    rfl
  have hps : prevSuccessB cfg env pair.2 = true := by
    have h2 := hprev.2
    rw [hpd] at h2
    simp [prevSuccessB, hprevOf, hp, h2]
  have hInh : branchInheritB cfg env st pair = false := by
    simp [branchInheritB, hs3]
  have hS3 : branchPriorS3B cfg env pair.2 = false := by
    simp [branchPriorS3B, hs3]
  have hLoc : branchPriorLocalB cfg env pair.2 = true := by
    simp [branchPriorLocalB, hps, hs3, hloc]
  simp only [pipeStep, hInh, hS3, hLoc, Bool.false_eq_true, if_false, if_true, hprevOf]

theorem foldl_short_circuit (cfg : PipeConfig) (env : PipeEnv)
    (hres : cfg.resume = true) (hs3 : cfg.s3Bucket = none) :
    ∀ (pairs : List (String × String)) (st : LoopState),
      (∀ p ∈ pairs, ((env.existingStatus p.2).isSome ∧
          ((env.existingStatus p.2).getD defaultStatusRow).status = "success") ∧
        env.localExists p.2 = true) →
      pairs.foldl (pipeStep cfg env) st
        = { st with
            rows := st.rows ++ pairs.map (fun p => (env.existingStatus p.2).getD defaultStatusRow) } := by
  intro pairs
  induction pairs with
  | nil => intro st _; simp
  | cons p ps ih =>
    intro st hall
    rw [List.foldl_cons,
      pipeStep_short_circuit cfg env st p hres hs3 (hall p (by simp)).1 (hall p (by simp)).2,
      ih _ (fun q hq => hall q (by simp [hq]))]
    simp

/-- C7: resuming with no remote target after a fully successful prior run:
every pair whose prior record is `success` and whose local file exists is
short-circuited, so the final row list (and the persisted status file) is
exactly the prior records in manifest order, and the worker is never
invoked — zero redaction work. -/
theorem run_pipeline_resume_short_circuit (cfg : PipeConfig) (env : PipeEnv)
    (pairs : List (String × String))
    (hres : cfg.resume = true) (hs3 : cfg.s3Bucket = none)
    (hprior : ∀ p ∈ pairs, (env.existingStatus p.2).isSome ∧
      ((env.existingStatus p.2).getD defaultStatusRow).status = "success")
    (hloc : ∀ p ∈ pairs, env.localExists p.2 = true) :
    (run_pipeline_loop cfg env pairs).rows
        = pairs.map (fun p => (env.existingStatus p.2).getD defaultStatusRow) ∧
    (run_pipeline_loop cfg env pairs).persisted
        = pairs.map (fun p => (env.existingStatus p.2).getD defaultStatusRow) ∧
    (run_pipeline_loop cfg env pairs).workerCalls = 0 ∧
    (run_pipeline_loop cfg env pairs).processed = 0 := by
  have hfold := foldl_short_circuit cfg env hres hs3 pairs (initState cfg env)
    (fun p hp => ⟨hprior p hp, hloc p hp⟩)
  simp only [run_pipeline_loop, hfold]
  simp [initState]

/-- Witness for C7 at the concrete two-pair resumed run. -/
theorem run_pipeline_resume_short_circuit_witness :
    (run_pipeline_loop resumeCfg resumeEnv resumePairs).rows = [prior1, prior2] ∧
    (run_pipeline_loop resumeCfg resumeEnv resumePairs).workerCalls = 0 := by
  have h := run_pipeline_resume_short_circuit resumeCfg resumeEnv resumePairs rfl rfl
    (by decide) (by decide)
  refine ⟨?_, h.2.2.1⟩
  rw [h.1]
  decide

/-- Counterexample to C8 as stated: on short-circuited pairs the loop
`continue`s before reaching `write_status_csv`, so at the loop boundary
after such a pair the on-disk status file does not equal the accumulated
row list (it still holds the previous run's full table). -/
theorem run_pipeline_persist_every_pair_counterexample :
    ¬ (∀ (cfg : PipeConfig) (env : PipeEnv) (pairs : List (String × String)),
        ∀ st ∈ (pipeStates cfg env (initState cfg env) pairs).tail,
          st.persisted = st.rows) := by
  intro h
  have hst := h resumeCfg resumeEnv resumePairs
    (pipeStep resumeCfg resumeEnv (initState resumeCfg resumeEnv) ("s1.svs", "out/d1.svs"))
    (by simp [pipeStates])
  exact absurd hst (by decide)

/-- C8 (amended): the status file is rewritten exactly after each pair that
reaches the worker-processing tail of the loop body; pairs that are
inherited from the remote manifest, short-circuited from a prior record,
or deferred by the processing cap leave the on-disk status file
untouched. -/
theorem pipeStep_persist (cfg : PipeConfig) (env : PipeEnv) (st : LoopState)
    (pair : String × String) :
    (pipeStep cfg env st pair).persisted =
      (if takesProcessingPath cfg env st pair then (pipeStep cfg env st pair).rows
       else st.persisted) := by
  cases hInh : branchInheritB cfg env st pair
  · cases hS3 : branchPriorS3B cfg env pair.2
    · cases hLoc : branchPriorLocalB cfg env pair.2
      · cases hCap : capReachedB cfg st
        · simp [pipeStep, takesProcessingPath, hInh, hS3, hLoc, hCap]
        · simp [pipeStep, takesProcessingPath, hInh, hS3, hLoc, hCap]
      · simp [pipeStep, takesProcessingPath, hInh, hS3, hLoc]
    · simp [pipeStep, takesProcessingPath, hInh, hS3]
  · simp [pipeStep, takesProcessingPath, hInh]

/-! ### Manifest reading (C9) -/

/-- Counterexample to C9 as stated: a relative location that exists
relative to the process working directory is resolved against the working
directory, not against the manifest's directory. -/
theorem read_manifest_cwd_counterexample :
    ¬ (∀ (cwd manifestDir : String) (fsExists : String → Bool) (rows : List ManifestRow),
        read_manifest_rows cwd manifestDir fsExists rows
          = (rows.filter (fun r => r.location.isSome)).map
              (fun r => { r with
                location := some (resolveAgainstDir manifestDir (r.location.getD "")) })) := by
  intro h
  have hc := h "/cwd" "/mani" mExists [relRow]
  exact absurd hc (by decide)

/-- C9 (amended): rows with an empty location are dropped and the rest keep
their order; each surviving row's location is resolved by
`resolve_location`: absolute locations are kept as-is, relative locations
that exist relative to the working directory resolve against it, and all
other relative locations resolve against the manifest's own directory. -/
theorem read_manifest_resolution (cwd manifestDir : String) (fsExists : String → Bool)
    (rows : List ManifestRow) :
    (read_manifest_rows cwd manifestDir fsExists rows).length
        = (rows.filter (fun r => r.location.isSome)).length ∧
    ∀ i : Nat, i < (rows.filter (fun r => r.location.isSome)).length →
      (read_manifest_rows cwd manifestDir fsExists rows).getD i defaultManifestRow
        = { (rows.filter (fun r => r.location.isSome)).getD i defaultManifestRow with
            location := some (resolve_location cwd manifestDir fsExists
              (((rows.filter (fun r => r.location.isSome)).getD i
                defaultManifestRow).location.getD "")) } := by
  constructor
  · simp [read_manifest_rows]
  · intro i hi
    rw [read_manifest_rows,
      List.getD_eq_getElem _ _ (by simpa using hi),
      List.getElem_map,
      List.getD_eq_getElem _ _ hi]

/-- Witness for the amended C9: the relative CWD-existing row resolves
against the working directory; the dropped empty row shifts nothing. -/
theorem read_manifest_resolution_witness :
    (read_manifest_rows "/cwd" "/mani" mExists mRows).getD 1 defaultManifestRow
      = { relRow with location := some "/cwd/rel.svs" } := by
  have h := (read_manifest_resolution "/cwd" "/mani" mExists mRows).2 1 (by decide)
  rw [h]
  decide

end SvsDeid
